import Mathlib

/-!
Verification of the event-normalization component of the TIE client
(`dxltieclient/callbacks.py`, class `ReputationChangeCallback`).

The embedding models JSON values as an inductive type whose objects are
insertion-ordered association lists, mirroring Python dictionaries.  The
payload pipeline of `on_event` (decode UTF-8, parse JSON, apply the
field transforms, invoke the handler) is translated step by step; a
successful result `Except.ok (d, e)` models the handler
`on_reputation_change` being invoked with the normalized dictionary `d`
and the original event `e`, while `Except.error` models the invocation
terminating with a raised exception before the handler runs.

`TieClient._transform_hashes`, `TieClient._transform_reputations`,
`TieClient._base64_to_hex` (from `dxltieclient/client.py`) and the key
constants (from `dxltieclient/constants.py`) are not part of the sources
under review; those definitions are modelled from the spec and marked as
such in their doc comments.
-/

set_option autoImplicit false

namespace TIE

/-- JSON values as parsed from an event payload.  Objects are ordered
association lists of key/value pairs, mirroring Python dictionaries;
numbers keep their source lexeme, because no transform in this component
inspects a numeric value. -/
inductive Json where
  | null : Json
  | bool (b : Bool) : Json
  | num (lexeme : String) : Json
  | str (s : String) : Json
  | arr (elems : List Json) : Json
  | obj (fields : List (String × Json)) : Json

/-- Look up a key in a JSON object field list (Python `d[k]`, and the
test `k in d` via `(getKey fs k).isSome`). -/
def getKey : List (String × Json) → String → Option Json
  | [], _ => none
  | (k', v) :: rest, k => if k' = k then some v else getKey rest k

/-- Replace the value stored at a key, keeping the key at its original
position, which is what the in-place Python assignment `d[k] = v` does
for a key that is already present; a missing key is appended. -/
def setKey : List (String × Json) → String → Json → List (String × Json)
  | [], k, v => [(k, v)]
  | (k', v') :: rest, k, v =>
    if k' = k then (k, v) :: rest else (k', v') :: setKey rest k v

/-! ### UTF-8 decoding

`event.payload.decode(encoding="UTF-8")` uses the strict UTF-8 codec:
continuation bytes must follow their lead byte, and overlong encodings,
surrogate code points and code points above U+10FFFF are rejected. -/

/-- Is `b` a UTF-8 continuation byte? -/
def utf8Cont (b : Nat) : Bool := 0x80 ≤ b && b < 0xC0

/-- Payload of a UTF-8 continuation byte. -/
def contVal (b : Nat) : Nat := b - 0x80

/-- Strict UTF-8 decoding of a byte list; `none` models the Python
`decode` call raising `UnicodeDecodeError`. -/
def decodeUtf8 : List Nat → Option (List Char)
  | [] => some []
  | b0 :: rest =>
    if b0 < 0x80 then
      (decodeUtf8 rest).map (fun cs => Char.ofNat b0 :: cs)
    else if b0 < 0xC2 then none
    else if b0 < 0xE0 then
      match rest with
      | b1 :: rest1 =>
        if utf8Cont b1 then
          (decodeUtf8 rest1).map (fun cs =>
            Char.ofNat ((b0 - 0xC0) * 0x40 + contVal b1) :: cs)
        else none
      | [] => none
    else if b0 < 0xF0 then
      match rest with
      | b1 :: b2 :: rest2 =>
        let lo1 := if b0 = 0xE0 then 0xA0 else 0x80
        let hi1 := if b0 = 0xED then 0xA0 else 0xC0
        if (lo1 ≤ b1 && b1 < hi1) && utf8Cont b2 then
          (decodeUtf8 rest2).map (fun cs =>
            Char.ofNat ((b0 - 0xE0) * 0x1000 + contVal b1 * 0x40 + contVal b2) :: cs)
        else none
      | _ => none
    else if b0 < 0xF5 then
      match rest with
      | b1 :: b2 :: b3 :: rest3 =>
        let lo1 := if b0 = 0xF0 then 0x90 else 0x80
        let hi1 := if b0 = 0xF4 then 0x90 else 0xC0
        if (lo1 ≤ b1 && b1 < hi1) && utf8Cont b2 && utf8Cont b3 then
          (decodeUtf8 rest3).map (fun cs =>
            Char.ofNat ((b0 - 0xF0) * 0x40000 + contVal b1 * 0x1000 +
              contVal b2 * 0x40 + contVal b3) :: cs)
        else none
      | _ => none
    else none

/-! ### JSON parsing

`json.loads` accepts one JSON value surrounded by optional whitespace and
consuming the whole text; strings reject raw control characters, and the
non-standard constants `NaN`, `Infinity` and `-Infinity` are accepted.
One divergence: `json.loads` keeps a lone `\uXXXX` surrogate escape as a
lone surrogate in the resulting text, which a well-formed model of
Unicode strings cannot hold, so the parser rejects lone surrogates;
no claim depends on such payloads. -/

/-- JSON whitespace. -/
def isJsonWs (c : Char) : Bool := c = ' ' || c = '\t' || c = '\n' || c = '\r'

/-- Drop leading JSON whitespace. -/
def skipWs : List Char → List Char
  | [] => []
  | c :: cs => if isJsonWs c then skipWs cs else c :: cs

/-- Value of a hexadecimal digit, read off the code point: `0`-`9` are
48-57, `a`-`f` are 97-102, `A`-`F` are 65-70. -/
def hexVal (c : Char) : Option Nat :=
  let n := c.toNat
  if 48 ≤ n && n ≤ 57 then some (n - 48)
  else if 97 ≤ n && n ≤ 102 then some (n - 87)
  else if 65 ≤ n && n ≤ 70 then some (n - 55)
  else none

/-- Parse exactly four hexadecimal digits (the `XXXX` of a `\uXXXX`
string escape). -/
def parseHex4 : List Char → Option (Nat × List Char)
  | c1 :: c2 :: c3 :: c4 :: rest =>
    match hexVal c1, hexVal c2, hexVal c3, hexVal c4 with
    | some h1, some h2, some h3, some h4 =>
      some ((((h1 * 16 + h2) * 16 + h3) * 16 + h4, rest))
    | _, _, _, _ => none
  | _ => none

/-- Parse the body of a JSON string after the opening quote, returning
its characters and the input after the closing quote.  Raw control
characters are rejected (strict mode), escape sequences follow the JSON
grammar, and `\uXXXX` surrogate pairs are combined. -/
def parseStringBody : Nat → List Char → Option (List Char × List Char)
  | 0, _ => none
  | _, [] => none
  | fuel + 1, c :: cs =>
    if c = '"' then some ([], cs)
    else if c = '\\' then
      match cs with
      | [] => none
      | e :: cs1 =>
        if e = '"' || e = '\\' || e = '/' then
          (parseStringBody fuel cs1).map (fun r => (e :: r.1, r.2))
        else if e = 'b' then
          (parseStringBody fuel cs1).map (fun r => (Char.ofNat 8 :: r.1, r.2))
        else if e = 'f' then
          (parseStringBody fuel cs1).map (fun r => (Char.ofNat 12 :: r.1, r.2))
        else if e = 'n' then
          (parseStringBody fuel cs1).map (fun r => ('\n' :: r.1, r.2))
        else if e = 'r' then
          (parseStringBody fuel cs1).map (fun r => ('\r' :: r.1, r.2))
        else if e = 't' then
          (parseStringBody fuel cs1).map (fun r => ('\t' :: r.1, r.2))
        else if e = 'u' then
          match parseHex4 cs1 with
          | none => none
          | some (n, cs2) =>
            if 0xD800 ≤ n && n ≤ 0xDBFF then
              match cs2 with
              | c3 :: c4 :: cs3 =>
                if c3 = '\\' && c4 = 'u' then
                  match parseHex4 cs3 with
                  | some (m, cs4) =>
                    if 0xDC00 ≤ m && m ≤ 0xDFFF then
                      (parseStringBody fuel cs4).map (fun r =>
                        (Char.ofNat (0x10000 + (n - 0xD800) * 0x400 + (m - 0xDC00)) :: r.1,
                          r.2))
                    else none
                  | none => none
                else none
              | _ => none
            else if 0xDC00 ≤ n && n ≤ 0xDFFF then none
            else (parseStringBody fuel cs2).map (fun r => (Char.ofNat n :: r.1, r.2))
        else none
    else if c.toNat < 0x20 then none
    else (parseStringBody fuel cs).map (fun r => (c :: r.1, r.2))

/-- Decimal digit test from the JSON number grammar (code points
48-57). -/
def isDigit (c : Char) : Bool := 48 ≤ c.toNat && c.toNat ≤ 57

/-- Split a maximal run of decimal digits off the front. -/
def takeDigits : List Char → List Char × List Char
  | [] => ([], [])
  | c :: cs =>
    if isDigit c then
      let r := takeDigits cs
      (c :: r.1, r.2)
    else ([], c :: cs)

/-- Integer part of a JSON number: `0`, or a nonzero digit followed by
digits (leading zeros are not allowed). -/
def parseIntPart : List Char → Option (List Char × List Char)
  | [] => none
  | c :: cs =>
    if c = '0' then some ([c], cs)
    else if isDigit c then
      let r := takeDigits cs
      some (c :: r.1, r.2)
    else none

/-- Optional fraction part `.digits`; returns `[]` and the untouched
input when absent, matching the regular expression used by the Python
decoder (a bare dot is left for the caller, which then fails on the
leftover input). -/
def parseFracPart : List Char → List Char × List Char
  | c :: cs =>
    if c = '.' then
      match takeDigits cs with
      | ([], _) => ([], c :: cs)
      | (ds, rest) => (c :: ds, rest)
    else ([], c :: cs)
  | [] => ([], [])

/-- Optional exponent part `e[+-]?digits`, by the same convention as
`parseFracPart`. -/
def parseExpPart : List Char → List Char × List Char
  | c :: cs =>
    if c = 'e' || c = 'E' then
      match cs with
      | s :: cs1 =>
        if s = '+' || s = '-' then
          match takeDigits cs1 with
          | ([], _) => ([], c :: cs)
          | (ds, rest) => (c :: s :: ds, rest)
        else
          match takeDigits cs with
          | ([], _) => ([], c :: cs)
          | (ds, rest) => (c :: ds, rest)
      | [] => ([], [c])
    else ([], c :: cs)
  | [] => ([], [])

/-- Parse a JSON number, returning its source lexeme. -/
def parseNumber (cs0 : List Char) : Option (String × List Char) :=
  match cs0 with
  | [] => none
  | c :: cs =>
    let sb : List Char × List Char := if c = '-' then ([c], cs) else ([], c :: cs)
    match parseIntPart sb.2 with
    | none => none
    | some (ip, r1) =>
      let fr := parseFracPart r1
      let ex := parseExpPart fr.2
      some (String.mk (sb.1 ++ ip ++ fr.1 ++ ex.1), ex.2)

/-- Match an expected literal tail, returning the remaining input. -/
def stripLit : List Char → List Char → Option (List Char)
  | [], cs => some cs
  | _ :: _, [] => none
  | e :: es, c :: cs => if c = e then stripLit es cs else none

mutual

/-- Parse one JSON value (after optional whitespace).  The fuel argument
only bounds the nesting recursion; `parseJson` passes enough fuel for
any input of the given length. -/
def parseValue (fuel : Nat) (cs : List Char) : Option (Json × List Char) :=
  match fuel with
  | 0 => none
  | fuel + 1 =>
    match skipWs cs with
    | [] => none
    | c :: cs1 =>
      if c = '"' then
        (parseStringBody (cs1.length + 1) cs1).map
          (fun r => (Json.str (String.mk r.1), r.2))
      else if c.toNat = 123 then
        match skipWs cs1 with
        | c2 :: cs2 =>
          if c2.toNat = 125 then some (Json.obj [], cs2)
          else (parseMembers fuel (c2 :: cs2) []).map (fun r => (Json.obj r.1, r.2))
        | [] => none
      else if c = '[' then
        match skipWs cs1 with
        | c2 :: cs2 =>
          if c2 = ']' then some (Json.arr [], cs2)
          else (parseElements fuel (c2 :: cs2) []).map (fun r => (Json.arr r.1, r.2))
        | [] => none
      else if c = 't' then
        (stripLit ['r', 'u', 'e'] cs1).map (fun r => (Json.bool true, r))
      else if c = 'f' then
        (stripLit ['a', 'l', 's', 'e'] cs1).map (fun r => (Json.bool false, r))
      else if c = 'n' then
        (stripLit ['u', 'l', 'l'] cs1).map (fun r => (Json.null, r))
      else if c = 'N' then
        (stripLit ['a', 'N'] cs1).map (fun r => (Json.num "NaN", r))
      else if c = 'I' then
        (stripLit ['n', 'f', 'i', 'n', 'i', 't', 'y'] cs1).map
          (fun r => (Json.num "Infinity", r))
      else if c = '-' && (match cs1 with | 'I' :: _ => true | _ => false) then
        (stripLit ['I', 'n', 'f', 'i', 'n', 'i', 't', 'y'] cs1).map
          (fun r => (Json.num "-Infinity", r))
      else
        (parseNumber (c :: cs1)).map (fun r => (Json.num r.1, r.2))

/-- Parse the members of a JSON object after its opening brace (first
member pending).  Duplicate keys keep the last value, as Python's
decoder does via repeated dictionary assignment. -/
def parseMembers (fuel : Nat) (cs : List Char) (acc : List (String × Json)) :
    Option (List (String × Json) × List Char) :=
  match fuel with
  | 0 => none
  | fuel + 1 =>
    match skipWs cs with
    | [] => none
    | c :: cs1 =>
      if c = '"' then
        match parseStringBody (cs1.length + 1) cs1 with
        | none => none
        | some (key, cs2) =>
          match skipWs cs2 with
          | ':' :: cs3 =>
            match parseValue fuel cs3 with
            | none => none
            | some (v, cs4) =>
              let acc1 := setKey acc (String.mk key) v
              match skipWs cs4 with
              | ',' :: cs5 => parseMembers fuel cs5 acc1
              | c6 :: cs6 => if c6.toNat = 125 then some (acc1, cs6) else none
              | [] => none
          | _ => none
      else none

/-- Parse the elements of a JSON array after its opening bracket (first
element pending). -/
def parseElements (fuel : Nat) (cs : List Char) (acc : List Json) :
    Option (List Json × List Char) :=
  match fuel with
  | 0 => none
  | fuel + 1 =>
    match parseValue fuel cs with
    | none => none
    | some (v, cs1) =>
      match skipWs cs1 with
      | ',' :: cs2 => parseElements fuel cs2 (acc ++ [v])
      | c3 :: cs3 => if c3 = ']' then some (acc ++ [v], cs3) else none
      | [] => none

end

/-- Parse a full payload text the way `json.loads` does: one JSON value,
surrounded by optional whitespace, consuming the entire input. -/
def parseJson (cs : List Char) : Option Json :=
  match parseValue (cs.length + 1) cs with
  | none => none
  | some (v, rest) =>
    match skipWs rest with
    | [] => some v
    | _ :: _ => none

/-- Decode payload bytes and parse them
(`json.loads(event.payload.decode(encoding="UTF-8"))`, callbacks.py
line 66); `none` models that line raising, i.e. a decode error. -/
def parsePayload (payload : List Nat) : Option Json :=
  (decodeUtf8 payload).bind parseJson

/-! ### Key constants

The key names come from `dxltieclient/constants.py`, which is not among
the sources under review; the spec fixes their values. -/

/-- Modelled from the spec: `RepChangeEventProp.HASHES` (from
`dxltieclient/constants.py`, not under review); the spec names the
top-level key `hashes`. -/
def RepChangeEventProp.HASHES : String := "hashes"

/-- Modelled from the spec: `RepChangeEventProp.NEW_REPUTATIONS`; the
spec names the top-level key `newReputations`. -/
def RepChangeEventProp.NEW_REPUTATIONS : String := "newReputations"

/-- Modelled from the spec: `RepChangeEventProp.OLD_REPUTATIONS`; the
spec names the top-level key `oldReputations`. -/
def RepChangeEventProp.OLD_REPUTATIONS : String := "oldReputations"

/-- Modelled from the spec: `FileRepChangeEventProp.RELATIONSHIPS`; the
spec names the top-level key `relationships`. -/
def FileRepChangeEventProp.RELATIONSHIPS : String := "relationships"

/-- Modelled from the spec: `CertRepChangeEventProp.PUBLIC_KEY_SHA1`;
the spec names the top-level key `publicKeySha1`. -/
def CertRepChangeEventProp.PUBLIC_KEY_SHA1 : String := "publicKeySha1"

/-! ### The transforms from `dxltieclient/client.py`

`TieClient._base64_to_hex`, `TieClient._transform_hashes` and
`TieClient._transform_reputations` live in `dxltieclient/client.py`,
which is not among the sources under review, so they are modelled from
the spec's descriptions of the Base64-to-Hex Transform, the Hash
Transform and the reputation unwrap. -/

/-- Value of a character of the standard base64 alphabet. -/
def b64Val (c : Char) : Option Nat :=
  if 'A' ≤ c && c ≤ 'Z' then some (c.toNat - 'A'.toNat)
  else if 'a' ≤ c && c ≤ 'z' then some (c.toNat - 'a'.toNat + 26)
  else if '0' ≤ c && c ≤ '9' then some (c.toNat - '0'.toNat + 52)
  else if c = '+' then some 62
  else if c = '/' then some 63
  else none

/-- Decode standard base64 text, given as four-character groups with `=`
padding allowed only at the very end; `none` on anything else. -/
def base64DecodeGroups : List Char → Option (List Nat)
  | [] => some []
  | c1 :: c2 :: c3 :: c4 :: rest =>
    match b64Val c1, b64Val c2 with
    | some v1, some v2 =>
      if c3 = '=' then
        if c4 = '=' && rest = [] then some [v1 * 4 + v2 / 16] else none
      else
        match b64Val c3 with
        | some v3 =>
          if c4 = '=' then
            if rest = [] then some [v1 * 4 + v2 / 16, v2 % 16 * 16 + v3 / 4] else none
          else
            match b64Val c4 with
            | some v4 =>
              (base64DecodeGroups rest).map (fun bs =>
                (v1 * 4 + v2 / 16) :: (v2 % 16 * 16 + v3 / 4) :: (v3 % 4 * 64 + v4) :: bs)
            | none => none
        | none => none
    | _, _ => none
  | _ => none

/-- Decode a standard base64 string to its bytes; `none` models a
decode failure on a non-base64 string. -/
def base64Decode (s : String) : Option (List Nat) :=
  base64DecodeGroups s.data

/-- The lowercase hexadecimal digit for a value below 16. -/
def hexDigitChar (n : Nat) : Char :=
  if n < 10 then Char.ofNat ('0'.toNat + n) else Char.ofNat ('a'.toNat + (n - 10))

/-- Two lowercase hexadecimal digits of one byte. -/
def byteToHex (b : Nat) : List Char := [hexDigitChar (b / 16), hexDigitChar (b % 16)]

/-- Lowercase hexadecimal encoding of a byte list. -/
def bytesToHex (bs : List Nat) : String := String.mk ((bs.map byteToHex).flatten)

/-- Modelled from the spec: `TieClient._base64_to_hex` (from
`dxltieclient/client.py`, not under review).  The spec's Base64-to-Hex
Transform: decode standard base64 and re-encode the bytes as lowercase
hexadecimal; the transform fails on a non-base64 string. -/
def base64_to_hex (s : String) : Option String :=
  (base64Decode s).map bytesToHex

/-- Decode hexadecimal text two digits per byte; `none` when the length
is odd or a character is not a hexadecimal digit. -/
def hexDecodePairs : List Char → Option (List Nat)
  | [] => some []
  | c1 :: c2 :: rest =>
    match hexVal c1, hexVal c2 with
    | some h1, some h2 => (hexDecodePairs rest).map (fun bs => (h1 * 16 + h2) :: bs)
    | _, _ => none
  | _ => none

/-- Re-encode one digest from its hexadecimal wire representation to
lowercase hexadecimal. -/
def hexReencode (s : String) : Option String :=
  (hexDecodePairs s.data).map bytesToHex

/-- Apply `hexReencode` to the digest of every (algorithm, digest) pair
of a hashes mapping. -/
def transformHashPairs : List (String × Json) → Option (List (String × Json))
  | [] => some []
  | (alg, Json.str d) :: rest =>
    match hexReencode d with
    | some d' => (transformHashPairs rest).map (fun t => (alg, Json.str d') :: t)
    | none => none
  | _ => none

/-- Modelled from the spec: `TieClient._transform_hashes` (from
`dxltieclient/client.py`, not under review).  The spec's Hash Transform:
for every (algorithm, encoded-digest) pair of the hashes mapping,
re-encode the digest from its wire representation (hexadecimal in the
observed protocol) to lowercase hexadecimal; anything that is not a
mapping of string digests fails the transform. -/
def transform_hashes (v : Json) : Option Json :=
  match v with
  | Json.obj fs => (transformHashPairs fs).map Json.obj
  | _ => none

/-- Modelled from the spec: `TieClient._transform_reputations` (from
`dxltieclient/client.py`, not under review).  The spec says each entry
of the unwrapped reputation mapping is used as-is, with no further
per-field transform, so the transform is the identity. -/
def transform_reputations (v : Json) : Json := v

/-! ### The event callback (`dxltieclient/callbacks.py`) -/

/-- How an invocation of `on_event` can terminate before reaching the
handler: a payload decode error (line 66 raising), a transform error
tagged with the offending field, or the unimplemented extension point
(line 249). -/
inductive NormError where
  | decodeError : NormError
  | transformError (field : String) : NormError
  | notImplemented (msg : String) : NormError

/-- A DXL event: opaque payload bytes plus transport metadata. -/
structure Event where
  payload : List Nat
  topic : String
  messageId : String

/-- Lines 69-71: if the `hashes` key is present, replace its value with
the transformed hashes; a transform failure is terminal. -/
def stepHashes (fs : List (String × Json)) : Except NormError (List (String × Json)) :=
  match getKey fs RepChangeEventProp.HASHES with
  | none => Except.ok fs
  | some v =>
    match transform_hashes v with
    | some v' => Except.ok (setKey fs RepChangeEventProp.HASHES v')
    | none => Except.error (NormError.transformError RepChangeEventProp.HASHES)

/-- Lines 74-85: if `key` (`newReputations` or `oldReputations`) is
present and its value contains a nested `reputations` key, replace the
top-level value with the transformed nested mapping.  Membership in and
indexing of the nested value are modelled on object values, the shape
the schema gives the field; for a value of any other shape the unwrap
does not apply. -/
def stepUnwrap (key : String) (fs : List (String × Json)) : List (String × Json) :=
  match getKey fs key with
  | some (Json.obj gs) =>
    match getKey gs "reputations" with
    | some r => setKey fs key (transform_reputations r)
    | none => fs
  | _ => fs

/-- Lines 92-94: transform a `hashes` field of the certificate object in
place when present. -/
def stepCertHashes (cfs : List (String × Json)) :
    Except NormError (List (String × Json)) :=
  match getKey cfs "hashes" with
  | none => Except.ok cfs
  | some v =>
    match transform_hashes v with
    | some v' => Except.ok (setKey cfs "hashes" v')
    | none => Except.error (NormError.transformError "hashes")

/-- Lines 95-97: transform a `publicKeySha1` field of the certificate
object in place when present; the base64 decode only applies to a
string value, anything else is a transform error. -/
def stepCertPublicKey (cfs : List (String × Json)) :
    Except NormError (List (String × Json)) :=
  match getKey cfs "publicKeySha1" with
  | none => Except.ok cfs
  | some (Json.str s) =>
    match base64_to_hex s with
    | some s' => Except.ok (setKey cfs "publicKeySha1" (Json.str s'))
    | none => Except.error (NormError.transformError "publicKeySha1")
  | some _ => Except.error (NormError.transformError "publicKeySha1")

/-- Lines 88-97: when a nested `relationships.certificate` object is
present, transform its `hashes` and `publicKeySha1` fields in place.
The Python code mutates the shared nested dictionaries, so the
functional model writes the updated certificate object back through
`relationships` into the record. -/
def stepRelationships (fs : List (String × Json)) :
    Except NormError (List (String × Json)) :=
  match getKey fs FileRepChangeEventProp.RELATIONSHIPS with
  | none => Except.ok fs
  | some (Json.obj rfs) =>
    match getKey rfs "certificate" with
    | some (Json.obj cfs) =>
      match stepCertHashes cfs with
      | Except.error err => Except.error err
      | Except.ok cfs1 =>
        match stepCertPublicKey cfs1 with
        | Except.error err => Except.error err
        | Except.ok cfs2 =>
          Except.ok (setKey fs FileRepChangeEventProp.RELATIONSHIPS
            (Json.obj (setKey rfs "certificate" (Json.obj cfs2))))
    | _ => Except.ok fs
  | some _ => Except.ok fs

/-- Lines 100-102: if the top-level `publicKeySha1` key is present,
replace its value with the Base64-to-Hex transform of it; a failure is
terminal for the invocation. -/
def stepPublicKeySha1 (fs : List (String × Json)) :
    Except NormError (List (String × Json)) :=
  match getKey fs CertRepChangeEventProp.PUBLIC_KEY_SHA1 with
  | none => Except.ok fs
  | some (Json.str s) =>
    match base64_to_hex s with
    | some s' =>
      Except.ok (setKey fs CertRepChangeEventProp.PUBLIC_KEY_SHA1 (Json.str s'))
    | none => Except.error (NormError.transformError CertRepChangeEventProp.PUBLIC_KEY_SHA1)
  | some _ => Except.error (NormError.transformError CertRepChangeEventProp.PUBLIC_KEY_SHA1)

/-- Lines 69-102: the transform pipeline of `on_event`, in source
order — hashes, newReputations, oldReputations, relationships,
top-level publicKeySha1. -/
def normalize (fs : List (String × Json)) : Except NormError (List (String × Json)) :=
  match stepHashes fs with
  | Except.error err => Except.error err
  | Except.ok fs1 =>
    match stepRelationships
        (stepUnwrap RepChangeEventProp.OLD_REPUTATIONS
          (stepUnwrap RepChangeEventProp.NEW_REPUTATIONS fs1)) with
    | Except.error err => Except.error err
    | Except.ok fs4 => stepPublicKeySha1 fs4

/-- Lines 66-102: decode and normalize one payload.  A non-object
payload has none of the keys the transforms test for, so it passes
through unchanged. -/
def normalizeRecord (payload : List Nat) : Except NormError Json :=
  match parsePayload payload with
  | none => Except.error NormError.decodeError
  | some (Json.obj fs) => (normalize fs).map Json.obj
  | some j => Except.ok j

/-- Lines 56-105: `ReputationChangeCallback.on_event`.  The result
`Except.ok (d, e)` models line 105 invoking `on_reputation_change` with
the normalized dictionary `d` and the original event `e`; an
`Except.error` models the invocation raising before the handler runs. -/
def on_event (event : Event) : Except NormError (Json × Event) :=
  (normalizeRecord event.payload).map (fun d => (d, event))

/-- Lines 107-249: the base `on_reputation_change` extension point
always raises `NotImplementedError`. -/
def on_reputation_change (_repChangeDict : Json) (_originalEvent : Event) :
    Except NormError Unit :=
  Except.error (NormError.notImplemented "Must be implemented in a child class.")

/-! ### Association-list lemmas -/

theorem getKey_setKey_same (fs : List (String × Json)) (k : String) (v : Json) :
    getKey (setKey fs k v) k = some v := by
  induction fs with
  | nil => simp [setKey, getKey]
  | cons p rest ih =>
    obtain ⟨k', v'⟩ := p
    by_cases h : k' = k
    · simp [setKey, getKey, h]
    · simp [setKey, getKey, h, ih]

theorem getKey_setKey_ne (fs : List (String × Json)) (k : String) (v : Json)
    (k' : String) (h : k' ≠ k) : getKey (setKey fs k v) k' = getKey fs k' := by
  have hne : ¬(k = k') := fun hh => h hh.symm
  induction fs with
  | nil => simp [setKey, getKey, hne]
  | cons p rest ih =>
    obtain ⟨k0, v0⟩ := p
    by_cases h0 : k0 = k
    · subst h0
      simp [setKey, getKey, hne]
    · simp only [setKey, if_neg h0, getKey]
      by_cases h1 : k0 = k'
      · simp [h1]
      · simp [h1, ih]

theorem map_fst_setKey (fs : List (String × Json)) (k : String) (v : Json)
    (h : getKey fs k ≠ none) : (setKey fs k v).map Prod.fst = fs.map Prod.fst := by
  induction fs with
  | nil => simp [getKey] at h
  | cons p rest ih =>
    obtain ⟨k0, v0⟩ := p
    by_cases h0 : k0 = k
    · simp [setKey, h0]
    · simp only [getKey, if_neg h0] at h
      simp [setKey, if_neg h0, ih h]

/-! ### Per-step lemmas: skip on absence, frame, key preservation -/

theorem stepHashes_absent (fs : List (String × Json))
    (h : getKey fs RepChangeEventProp.HASHES = none) : stepHashes fs = Except.ok fs := by
  simp [stepHashes, h]

theorem stepHashes_frame (fs fs' : List (String × Json))
    (h : stepHashes fs = Except.ok fs') (k : String)
    (hk : k ≠ RepChangeEventProp.HASHES) : getKey fs' k = getKey fs k := by
  unfold stepHashes at h
  cases hg : getKey fs RepChangeEventProp.HASHES with
  | none =>
    simp only [hg] at h
    cases h
    rfl
  | some v =>
    simp only [hg] at h
    cases ht : transform_hashes v with
    | none => simp only [ht] at h; exact Except.noConfusion h
    | some v' =>
      simp only [ht] at h
      cases h
      exact getKey_setKey_ne _ _ _ _ hk

theorem stepHashes_keys (fs fs' : List (String × Json))
    (h : stepHashes fs = Except.ok fs') : fs'.map Prod.fst = fs.map Prod.fst := by
  unfold stepHashes at h
  cases hg : getKey fs RepChangeEventProp.HASHES with
  | none =>
    simp only [hg] at h
    cases h
    rfl
  | some v =>
    simp only [hg] at h
    cases ht : transform_hashes v with
    | none => simp only [ht] at h; exact Except.noConfusion h
    | some v' =>
      simp only [ht] at h
      cases h
      exact map_fst_setKey _ _ _ (by simp [hg])

theorem stepUnwrap_absent (key : String) (fs : List (String × Json))
    (h : getKey fs key = none) : stepUnwrap key fs = fs := by
  simp [stepUnwrap, h]

theorem stepUnwrap_frame (key : String) (fs : List (String × Json)) (k : String)
    (hk : k ≠ key) : getKey (stepUnwrap key fs) k = getKey fs k := by
  cases hg : getKey fs key with
  | none => simp [stepUnwrap, hg]
  | some v =>
    cases v with
    | obj gs =>
      cases hr : getKey gs "reputations" with
      | none => simp [stepUnwrap, hg, hr]
      | some r =>
        simp only [stepUnwrap, hg, hr]
        exact getKey_setKey_ne _ _ _ _ hk
    | null => simp [stepUnwrap, hg]
    | bool b => simp [stepUnwrap, hg]
    | num l => simp [stepUnwrap, hg]
    | str s => simp [stepUnwrap, hg]
    | arr xs => simp [stepUnwrap, hg]

theorem stepUnwrap_keys (key : String) (fs : List (String × Json)) :
    (stepUnwrap key fs).map Prod.fst = fs.map Prod.fst := by
  cases hg : getKey fs key with
  | none => simp [stepUnwrap, hg]
  | some v =>
    cases v with
    | obj gs =>
      cases hr : getKey gs "reputations" with
      | none => simp [stepUnwrap, hg, hr]
      | some r =>
        simp only [stepUnwrap, hg, hr]
        exact map_fst_setKey _ _ _ (by simp [hg])
    | null => simp [stepUnwrap, hg]
    | bool b => simp [stepUnwrap, hg]
    | num l => simp [stepUnwrap, hg]
    | str s => simp [stepUnwrap, hg]
    | arr xs => simp [stepUnwrap, hg]

theorem stepRelationships_absent (fs : List (String × Json))
    (h : getKey fs FileRepChangeEventProp.RELATIONSHIPS = none) :
    stepRelationships fs = Except.ok fs := by
  simp [stepRelationships, h]

theorem stepRelationships_frame (fs fs' : List (String × Json))
    (h : stepRelationships fs = Except.ok fs') (k : String)
    (hk : k ≠ FileRepChangeEventProp.RELATIONSHIPS) : getKey fs' k = getKey fs k := by
  unfold stepRelationships at h
  cases hg : getKey fs FileRepChangeEventProp.RELATIONSHIPS with
  | none =>
    simp only [hg] at h
    cases h
    rfl
  | some v =>
    simp only [hg] at h
    cases v with
    | obj rfs =>
      cases hc : getKey rfs "certificate" with
      | none => simp only [hc] at h; cases h; rfl
      | some cv =>
        cases cv with
        | obj cfs =>
          simp only [hc] at h
          cases h1 : stepCertHashes cfs with
          | error e => simp only [h1] at h; exact Except.noConfusion h
          | ok cfs1 =>
            simp only [h1] at h
            cases h2 : stepCertPublicKey cfs1 with
            | error e => simp only [h2] at h; exact Except.noConfusion h
            | ok cfs2 =>
              simp only [h2] at h
              cases h
              exact getKey_setKey_ne _ _ _ _ hk
        | null => simp only [hc] at h; cases h; rfl
        | bool b => simp only [hc] at h; cases h; rfl
        | num l => simp only [hc] at h; cases h; rfl
        | str s => simp only [hc] at h; cases h; rfl
        | arr xs => simp only [hc] at h; cases h; rfl
    | null => cases h; rfl
    | bool b => cases h; rfl
    | num l => cases h; rfl
    | str s => cases h; rfl
    | arr xs => cases h; rfl

theorem stepRelationships_keys (fs fs' : List (String × Json))
    (h : stepRelationships fs = Except.ok fs') : fs'.map Prod.fst = fs.map Prod.fst := by
  unfold stepRelationships at h
  cases hg : getKey fs FileRepChangeEventProp.RELATIONSHIPS with
  | none =>
    simp only [hg] at h
    cases h
    rfl
  | some v =>
    simp only [hg] at h
    cases v with
    | obj rfs =>
      cases hc : getKey rfs "certificate" with
      | none => simp only [hc] at h; cases h; rfl
      | some cv =>
        cases cv with
        | obj cfs =>
          simp only [hc] at h
          cases h1 : stepCertHashes cfs with
          | error e => simp only [h1] at h; exact Except.noConfusion h
          | ok cfs1 =>
            simp only [h1] at h
            cases h2 : stepCertPublicKey cfs1 with
            | error e => simp only [h2] at h; exact Except.noConfusion h
            | ok cfs2 =>
              simp only [h2] at h
              cases h
              exact map_fst_setKey _ _ _ (by simp [hg])
        | null => simp only [hc] at h; cases h; rfl
        | bool b => simp only [hc] at h; cases h; rfl
        | num l => simp only [hc] at h; cases h; rfl
        | str s => simp only [hc] at h; cases h; rfl
        | arr xs => simp only [hc] at h; cases h; rfl
    | null => cases h; rfl
    | bool b => cases h; rfl
    | num l => cases h; rfl
    | str s => cases h; rfl
    | arr xs => cases h; rfl

theorem stepPublicKeySha1_absent (fs : List (String × Json))
    (h : getKey fs CertRepChangeEventProp.PUBLIC_KEY_SHA1 = none) :
    stepPublicKeySha1 fs = Except.ok fs := by
  simp [stepPublicKeySha1, h]

theorem stepPublicKeySha1_frame (fs fs' : List (String × Json))
    (h : stepPublicKeySha1 fs = Except.ok fs') (k : String)
    (hk : k ≠ CertRepChangeEventProp.PUBLIC_KEY_SHA1) : getKey fs' k = getKey fs k := by
  unfold stepPublicKeySha1 at h
  cases hg : getKey fs CertRepChangeEventProp.PUBLIC_KEY_SHA1 with
  | none =>
    simp only [hg] at h
    cases h
    rfl
  | some v =>
    simp only [hg] at h
    cases v with
    | str s =>
      cases hb : base64_to_hex s with
      | none => simp only [hb] at h; exact Except.noConfusion h
      | some s' =>
        simp only [hb] at h
        cases h
        exact getKey_setKey_ne _ _ _ _ hk
    | null => exact Except.noConfusion h
    | bool b => exact Except.noConfusion h
    | num l => exact Except.noConfusion h
    | arr xs => exact Except.noConfusion h
    | obj gs => exact Except.noConfusion h

theorem stepPublicKeySha1_keys (fs fs' : List (String × Json))
    (h : stepPublicKeySha1 fs = Except.ok fs') : fs'.map Prod.fst = fs.map Prod.fst := by
  unfold stepPublicKeySha1 at h
  cases hg : getKey fs CertRepChangeEventProp.PUBLIC_KEY_SHA1 with
  | none =>
    simp only [hg] at h
    cases h
    rfl
  | some v =>
    simp only [hg] at h
    cases v with
    | str s =>
      cases hb : base64_to_hex s with
      | none => simp only [hb] at h; exact Except.noConfusion h
      | some s' =>
        simp only [hb] at h
        cases h
        exact map_fst_setKey _ _ _ (by simp [hg])
    | null => exact Except.noConfusion h
    | bool b => exact Except.noConfusion h
    | num l => exact Except.noConfusion h
    | arr xs => exact Except.noConfusion h
    | obj gs => exact Except.noConfusion h

theorem normalize_frame (fs fs' : List (String × Json))
    (h : normalize fs = Except.ok fs') (k : String)
    (h1 : k ≠ RepChangeEventProp.HASHES)
    (h2 : k ≠ RepChangeEventProp.NEW_REPUTATIONS)
    (h3 : k ≠ RepChangeEventProp.OLD_REPUTATIONS)
    (h4 : k ≠ FileRepChangeEventProp.RELATIONSHIPS)
    (h5 : k ≠ CertRepChangeEventProp.PUBLIC_KEY_SHA1) :
    getKey fs' k = getKey fs k := by
  unfold normalize at h
  cases hh : stepHashes fs with
  | error e => simp only [hh] at h; exact Except.noConfusion h
  | ok fs1 =>
    simp only [hh] at h
    cases hr : stepRelationships
        (stepUnwrap RepChangeEventProp.OLD_REPUTATIONS
          (stepUnwrap RepChangeEventProp.NEW_REPUTATIONS fs1)) with
    | error e => simp only [hr] at h; exact Except.noConfusion h
    | ok fs4 =>
      simp only [hr] at h
      calc getKey fs' k
          = getKey fs4 k := stepPublicKeySha1_frame _ _ h k h5
        _ = getKey (stepUnwrap RepChangeEventProp.OLD_REPUTATIONS
              (stepUnwrap RepChangeEventProp.NEW_REPUTATIONS fs1)) k :=
            (stepRelationships_frame _ _ hr k h4).symm ▸ rfl
        _ = getKey (stepUnwrap RepChangeEventProp.NEW_REPUTATIONS fs1) k :=
            stepUnwrap_frame _ _ k h3
        _ = getKey fs1 k := stepUnwrap_frame _ _ k h2
        _ = getKey fs k := stepHashes_frame _ _ hh k h1

theorem normalize_keys (fs fs' : List (String × Json))
    (h : normalize fs = Except.ok fs') : fs'.map Prod.fst = fs.map Prod.fst := by
  unfold normalize at h
  cases hh : stepHashes fs with
  | error e => simp only [hh] at h; exact Except.noConfusion h
  | ok fs1 =>
    simp only [hh] at h
    cases hr : stepRelationships
        (stepUnwrap RepChangeEventProp.OLD_REPUTATIONS
          (stepUnwrap RepChangeEventProp.NEW_REPUTATIONS fs1)) with
    | error e => simp only [hr] at h; exact Except.noConfusion h
    | ok fs4 =>
      simp only [hr] at h
      calc fs'.map Prod.fst
          = fs4.map Prod.fst := stepPublicKeySha1_keys _ _ h
        _ = (stepUnwrap RepChangeEventProp.OLD_REPUTATIONS
              (stepUnwrap RepChangeEventProp.NEW_REPUTATIONS fs1)).map Prod.fst :=
            stepRelationships_keys _ _ hr
        _ = (stepUnwrap RepChangeEventProp.NEW_REPUTATIONS fs1).map Prod.fst :=
            stepUnwrap_keys _ _
        _ = fs1.map Prod.fst := stepUnwrap_keys _ _
        _ = fs.map Prod.fst := stepHashes_keys _ _ hh

/-! ### The claims -/

/-- C1: for every input event whose payload parses as a JSON object
containing none of the recognized top-level keys (hashes,
newReputations, oldReputations, relationships, publicKeySha1),
`on_event` performs no transform and invokes the registered handler with
the parsed record unchanged, together with the original event. -/
theorem C1_no_recognized_keys_identity (e : Event) (fs : List (String × Json))
    (hp : parsePayload e.payload = some (Json.obj fs))
    (h1 : getKey fs RepChangeEventProp.HASHES = none)
    (h2 : getKey fs RepChangeEventProp.NEW_REPUTATIONS = none)
    (h3 : getKey fs RepChangeEventProp.OLD_REPUTATIONS = none)
    (h4 : getKey fs FileRepChangeEventProp.RELATIONSHIPS = none)
    (h5 : getKey fs CertRepChangeEventProp.PUBLIC_KEY_SHA1 = none) :
    on_event e = Except.ok (Json.obj fs, e) := by
  have hn : normalize fs = Except.ok fs := by
    simp only [normalize, stepHashes_absent fs h1, stepUnwrap_absent _ _ h2,
      stepUnwrap_absent _ _ h3, stepRelationships_absent _ h4,
      stepPublicKeySha1_absent _ h5]
  simp only [on_event, normalizeRecord, hp, hn, Except.map]

/-- Witness for C1: a record holding only `updateTime` passes through
unchanged. -/
theorem C1_witness :
    on_event ⟨[123, 34, 117, 112, 100, 97, 116, 101, 84, 105, 109, 101, 34, 58, 53, 125],
        "topicA", "msg1"⟩ =
      Except.ok (Json.obj [("updateTime", Json.num "5")],
        ⟨[123, 34, 117, 112, 100, 97, 116, 101, 84, 105, 109, 101, 34, 58, 53, 125],
          "topicA", "msg1"⟩) :=
  C1_no_recognized_keys_identity _ _ rfl rfl rfl rfl rfl rfl

/-- C2: for every input event whose payload bytes are not valid UTF-8 or
not valid JSON, `on_event` signals a decode error, so the handler
`on_reputation_change` is never invoked for that invocation (an
`Except.error` result means line 105 is never reached). -/
theorem C2_decode_error (e : Event) (hp : parsePayload e.payload = none) :
    on_event e = Except.error NormError.decodeError := by
  simp only [on_event, normalizeRecord, hp, Except.map]

/-- Witness for C2: the single byte 0xFF is not valid UTF-8. -/
theorem C2_witness :
    on_event ⟨[255], "topicA", "msg1"⟩ = Except.error NormError.decodeError :=
  C2_decode_error _ rfl

/-- C3: for every parsed record in which `newReputations` (respectively
`oldReputations`) is present with an object value containing a nested
`reputations` key, the unwrap step of `on_event` replaces the top-level
value with exactly that nested mapping and leaves its entries
untouched. -/
theorem C3_unwrap_nested_reputations (key : String) (fs gs : List (String × Json))
    (r : Json)
    (_hkey : key = RepChangeEventProp.NEW_REPUTATIONS ∨
      key = RepChangeEventProp.OLD_REPUTATIONS)
    (hv : getKey fs key = some (Json.obj gs))
    (hr : getKey gs "reputations" = some r) :
    stepUnwrap key fs = setKey fs key r ∧ getKey (stepUnwrap key fs) key = some r := by
  have h1 : stepUnwrap key fs = setKey fs key r := by
    simp only [stepUnwrap, hv, hr, transform_reputations]
  exact ⟨h1, by rw [h1]; exact getKey_setKey_same _ _ _⟩

/-- Witness for C3: unwrapping a wrapped `newReputations` value yields
exactly the nested mapping. -/
theorem C3_witness :
    stepUnwrap RepChangeEventProp.NEW_REPUTATIONS
        [("newReputations", Json.obj [("reputations", Json.obj [("1", Json.num "7")])]),
          ("updateTime", Json.num "5")] =
      [("newReputations", Json.obj [("1", Json.num "7")]), ("updateTime", Json.num "5")] := by
  have h := C3_unwrap_nested_reputations RepChangeEventProp.NEW_REPUTATIONS
    [("newReputations", Json.obj [("reputations", Json.obj [("1", Json.num "7")])]),
      ("updateTime", Json.num "5")]
    [("reputations", Json.obj [("1", Json.num "7")])]
    (Json.obj [("1", Json.num "7")]) (Or.inl rfl) rfl rfl
  exact h.1.trans rfl

/-- C4: for every record whose `newReputations` (or `oldReputations`)
value is already unwrapped, i.e. is a mapping without the key
`reputations`, the unwrap step leaves it unchanged, so applying the
unwrap step twice equals applying it once. -/
theorem C4_unwrap_noop_idempotent (key : String) (fs gs : List (String × Json))
    (_hkey : key = RepChangeEventProp.NEW_REPUTATIONS ∨
      key = RepChangeEventProp.OLD_REPUTATIONS)
    (hv : getKey fs key = some (Json.obj gs))
    (hr : getKey gs "reputations" = none) :
    stepUnwrap key fs = fs ∧ stepUnwrap key (stepUnwrap key fs) = stepUnwrap key fs := by
  have h1 : stepUnwrap key fs = fs := by simp only [stepUnwrap, hv, hr]
  exact ⟨h1, by rw [h1]; exact h1⟩

/-- Witness for C4: an already-unwrapped `oldReputations` value is left
untouched and double application is a no-op. -/
theorem C4_witness :
    stepUnwrap RepChangeEventProp.OLD_REPUTATIONS
        [("oldReputations", Json.obj [("1", Json.num "7")])] =
      [("oldReputations", Json.obj [("1", Json.num "7")])] :=
  (C4_unwrap_noop_idempotent RepChangeEventProp.OLD_REPUTATIONS
    [("oldReputations", Json.obj [("1", Json.num "7")])]
    [("1", Json.num "7")] (Or.inr rfl) rfl rfl).1

/-- C5: for every record containing a nested `relationships.certificate`
object with a `hashes` field and a `publicKeySha1` field, the
relationships step applies the Hash Transform to `hashes` and the
Base64-to-Hex Transform to `publicKeySha1`, both in place inside the
nested certificate object, while every other field of the certificate
object and of the relationships object is left untouched. -/
theorem C5_cert_transforms (fs rfs cfs : List (String × Json)) (hv hv' : Json)
    (s s' : String)
    (hrel : getKey fs FileRepChangeEventProp.RELATIONSHIPS = some (Json.obj rfs))
    (hcert : getKey rfs "certificate" = some (Json.obj cfs))
    (hh : getKey cfs "hashes" = some hv)
    (hth : transform_hashes hv = some hv')
    (hpk : getKey cfs "publicKeySha1" = some (Json.str s))
    (hb : base64_to_hex s = some s') :
    stepRelationships fs =
      Except.ok (setKey fs FileRepChangeEventProp.RELATIONSHIPS
        (Json.obj (setKey rfs "certificate"
          (Json.obj (setKey (setKey cfs "hashes" hv') "publicKeySha1" (Json.str s')))))) ∧
    (∀ k, k ≠ "hashes" → k ≠ "publicKeySha1" →
      getKey (setKey (setKey cfs "hashes" hv') "publicKeySha1" (Json.str s')) k =
        getKey cfs k) ∧
    (∀ k, k ≠ "certificate" →
      getKey (setKey rfs "certificate"
        (Json.obj (setKey (setKey cfs "hashes" hv') "publicKeySha1" (Json.str s')))) k =
        getKey rfs k) := by
  have hch : stepCertHashes cfs = Except.ok (setKey cfs "hashes" hv') := by
    simp only [stepCertHashes, hh, hth]
  have hpk1 : getKey (setKey cfs "hashes" hv') "publicKeySha1" = some (Json.str s) := by
    rw [getKey_setKey_ne _ _ _ _ (by decide)]
    exact hpk
  have hcp : stepCertPublicKey (setKey cfs "hashes" hv') =
      Except.ok (setKey (setKey cfs "hashes" hv') "publicKeySha1" (Json.str s')) := by
    simp only [stepCertPublicKey, hpk1, hb]
  refine ⟨?_, ?_, ?_⟩
  · simp only [stepRelationships, hrel, hcert, hch, hcp]
  · intro k hk1 hk2
    rw [getKey_setKey_ne _ _ _ _ hk2, getKey_setKey_ne _ _ _ _ hk1]
  · intro k hk
    exact getKey_setKey_ne _ _ _ _ hk

/-- Witness for C5: both certificate fields are transformed in place,
the certificate's `other` field and the relationships object's `x`
field stay untouched. -/
theorem C5_witness :
    stepRelationships
        [("relationships", Json.obj
          [("certificate", Json.obj
            [("hashes", Json.obj [("md5", Json.str "AB")]),
              ("publicKeySha1", Json.str "AAEC"),
              ("other", Json.num "1")]),
            ("x", Json.num "2")])] =
      Except.ok
        [("relationships", Json.obj
          [("certificate", Json.obj
            [("hashes", Json.obj [("md5", Json.str "ab")]),
              ("publicKeySha1", Json.str "000102"),
              ("other", Json.num "1")]),
            ("x", Json.num "2")])] := by
  have h := C5_cert_transforms
    [("relationships", Json.obj
      [("certificate", Json.obj
        [("hashes", Json.obj [("md5", Json.str "AB")]),
          ("publicKeySha1", Json.str "AAEC"),
          ("other", Json.num "1")]),
        ("x", Json.num "2")])]
    [("certificate", Json.obj
      [("hashes", Json.obj [("md5", Json.str "AB")]),
        ("publicKeySha1", Json.str "AAEC"),
        ("other", Json.num "1")]),
      ("x", Json.num "2")]
    [("hashes", Json.obj [("md5", Json.str "AB")]),
      ("publicKeySha1", Json.str "AAEC"),
      ("other", Json.num "1")]
    (Json.obj [("md5", Json.str "AB")]) (Json.obj [("md5", Json.str "ab")])
    "AAEC" "000102" rfl rfl rfl rfl rfl rfl
  exact h.1.trans rfl

/-- C6: for every record whose top-level `publicKeySha1` field holds a
valid base64 string, the step replaces its value with the lowercase-hex
encoding of the decoded bytes (in particular `"AAEC"` becomes
`"000102"`); for a non-base64 string the transform fails and the step
terminates the invocation with a transform error. -/
theorem C6_public_key_sha1_transform :
    (∀ (fs : List (String × Json)) (s hex : String),
      getKey fs CertRepChangeEventProp.PUBLIC_KEY_SHA1 = some (Json.str s) →
      base64_to_hex s = some hex →
      stepPublicKeySha1 fs =
        Except.ok (setKey fs CertRepChangeEventProp.PUBLIC_KEY_SHA1 (Json.str hex))) ∧
    base64_to_hex "AAEC" = some "000102" ∧
    (∀ (fs : List (String × Json)) (s : String),
      getKey fs CertRepChangeEventProp.PUBLIC_KEY_SHA1 = some (Json.str s) →
      base64_to_hex s = none →
      stepPublicKeySha1 fs =
        Except.error (NormError.transformError CertRepChangeEventProp.PUBLIC_KEY_SHA1)) := by
  refine ⟨?_, rfl, ?_⟩
  · intro fs s hex hg hb
    simp only [stepPublicKeySha1, hg, hb]
  · intro fs s hg hb
    simp only [stepPublicKeySha1, hg, hb]

/-- Witness for C6: `"AAEC"` is rewritten to `"000102"`, and the
non-base64 string `"!"` is a transform error. -/
theorem C6_witness :
    stepPublicKeySha1 [("publicKeySha1", Json.str "AAEC")] =
      Except.ok [("publicKeySha1", Json.str "000102")] ∧
    stepPublicKeySha1 [("publicKeySha1", Json.str "!")] =
      Except.error (NormError.transformError "publicKeySha1") := by
  refine ⟨?_, ?_⟩
  · exact ((C6_public_key_sha1_transform.1)
      [("publicKeySha1", Json.str "AAEC")] "AAEC" "000102" rfl rfl).trans rfl
  · exact ((C6_public_key_sha1_transform.2.2)
      [("publicKeySha1", Json.str "!")] "!" rfl rfl).trans rfl

/-- C7: invoking the base extension point `on_reputation_change` without
overriding it signals a not-implemented error for every input, rather
than silently doing nothing. -/
theorem C7_on_reputation_change_not_implemented (d : Json) (e : Event) :
    on_reputation_change d e =
      Except.error (NormError.notImplemented "Must be implemented in a child class.") :=
  rfl

/-- C8: every transform of the pipeline is conditional on the presence
of its key — an absent optional field is skipped with no defaulting and
no error — and a successful run of the pipeline preserves the list of
top-level key names exactly. -/
theorem C8_conditional_transforms_preserve_keys :
    (∀ fs : List (String × Json), getKey fs RepChangeEventProp.HASHES = none →
      stepHashes fs = Except.ok fs) ∧
    (∀ (key : String) (fs : List (String × Json)), getKey fs key = none →
      stepUnwrap key fs = fs) ∧
    (∀ fs : List (String × Json), getKey fs FileRepChangeEventProp.RELATIONSHIPS = none →
      stepRelationships fs = Except.ok fs) ∧
    (∀ fs : List (String × Json), getKey fs CertRepChangeEventProp.PUBLIC_KEY_SHA1 = none →
      stepPublicKeySha1 fs = Except.ok fs) ∧
    (∀ fs fs' : List (String × Json), normalize fs = Except.ok fs' →
      fs'.map Prod.fst = fs.map Prod.fst) :=
  ⟨stepHashes_absent, stepUnwrap_absent, stepRelationships_absent,
    stepPublicKeySha1_absent, normalize_keys⟩

/-- Witness for C8: the hashes step skips a record without `hashes`, and
a run that rewrites `publicKeySha1` keeps the key names. -/
theorem C8_witness :
    stepHashes [("updateTime", Json.num "5")] =
      Except.ok [("updateTime", Json.num "5")] ∧
    List.map Prod.fst [("publicKeySha1", Json.str "000102")] =
      List.map Prod.fst [("publicKeySha1", Json.str "AAEC")] := by
  refine ⟨?_, ?_⟩
  · exact C8_conditional_transforms_preserve_keys.1 [("updateTime", Json.num "5")] rfl
  · exact C8_conditional_transforms_preserve_keys.2.2.2.2
      [("publicKeySha1", Json.str "AAEC")] [("publicKeySha1", Json.str "000102")] rfl

/-- C9: `on_event` is a pure function of the payload bytes: two
invocations with equal payloads hand the handler equal normalized
records (two-run determinism). -/
theorem C9_deterministic (e1 e2 : Event) (hpay : e1.payload = e2.payload)
    (d1 d2 : Json)
    (h1 : on_event e1 = Except.ok (d1, e1))
    (h2 : on_event e2 = Except.ok (d2, e2)) :
    d1 = d2 := by
  have key : ∀ (e : Event) (d : Json), on_event e = Except.ok (d, e) →
      normalizeRecord e.payload = Except.ok d := by
    intro e d h
    unfold on_event at h
    cases hn : normalizeRecord e.payload with
    | error err => rw [hn] at h; exact Except.noConfusion h
    | ok d0 =>
      rw [hn] at h
      simp only [Except.map] at h
      injection h with h
      injection h with hd he
      rw [hd]
  have k1 := key e1 d1 h1
  have k2 := key e2 d2 h2
  rw [hpay] at k1
  rw [k1] at k2
  injection k2

/-- Witness for C9: two events with the same payload but different
topics and message ids produce the same record. -/
theorem C9_witness :
    Json.obj [("updateTime", Json.num "5")] = Json.obj [("updateTime", Json.num "5")] :=
  C9_deterministic
    ⟨[123, 34, 117, 112, 100, 97, 116, 101, 84, 105, 109, 101, 34, 58, 53, 125],
      "topicA", "msg1"⟩
    ⟨[123, 34, 117, 112, 100, 97, 116, 101, 84, 105, 109, 101, 34, 58, 53, 125],
      "topicB", "msg2"⟩
    rfl (Json.obj [("updateTime", Json.num "5")]) (Json.obj [("updateTime", Json.num "5")])
    rfl rfl

/-- C10: for every parsed record and every top-level key other than the
five recognized ones (in particular `updateTime` and any unrecognized
key), the handler receives under that key exactly the value produced by
parsing the payload — the pipeline never modifies unrecognized top-level
fields. -/
theorem C10_unrecognized_fields_unchanged (e : Event)
    (fs fs' : List (String × Json)) (k : String)
    (hp : parsePayload e.payload = some (Json.obj fs))
    (hn : normalize fs = Except.ok fs')
    (h1 : k ≠ RepChangeEventProp.HASHES)
    (h2 : k ≠ RepChangeEventProp.NEW_REPUTATIONS)
    (h3 : k ≠ RepChangeEventProp.OLD_REPUTATIONS)
    (h4 : k ≠ FileRepChangeEventProp.RELATIONSHIPS)
    (h5 : k ≠ CertRepChangeEventProp.PUBLIC_KEY_SHA1) :
    on_event e = Except.ok (Json.obj fs', e) ∧ getKey fs' k = getKey fs k := by
  constructor
  · simp only [on_event, normalizeRecord, hp, hn, Except.map]
  · exact normalize_frame _ _ hn k h1 h2 h3 h4 h5

/-- Witness for C10: a record with `publicKeySha1` and `updateTime` —
the former is rewritten while `updateTime` keeps its parsed value. -/
theorem C10_witness :
    on_event ⟨[123, 34, 112, 117, 98, 108, 105, 99, 75, 101, 121, 83, 104, 97, 49, 34, 58,
        34, 65, 65, 69, 67, 34, 44, 34, 117, 112, 100, 97, 116, 101, 84, 105, 109, 101, 34,
        58, 53, 125], "topicA", "msg1"⟩ =
      Except.ok (Json.obj [("publicKeySha1", Json.str "000102"),
        ("updateTime", Json.num "5")],
        ⟨[123, 34, 112, 117, 98, 108, 105, 99, 75, 101, 121, 83, 104, 97, 49, 34, 58,
          34, 65, 65, 69, 67, 34, 44, 34, 117, 112, 100, 97, 116, 101, 84, 105, 109, 101, 34,
          58, 53, 125], "topicA", "msg1"⟩) ∧
    getKey [("publicKeySha1", Json.str "000102"), ("updateTime", Json.num "5")]
        "updateTime" =
      getKey [("publicKeySha1", Json.str "AAEC"), ("updateTime", Json.num "5")]
        "updateTime" :=
  C10_unrecognized_fields_unchanged
    ⟨[123, 34, 112, 117, 98, 108, 105, 99, 75, 101, 121, 83, 104, 97, 49, 34, 58,
      34, 65, 65, 69, 67, 34, 44, 34, 117, 112, 100, 97, 116, 101, 84, 105, 109, 101, 34,
      58, 53, 125], "topicA", "msg1"⟩
    [("publicKeySha1", Json.str "AAEC"), ("updateTime", Json.num "5")]
    [("publicKeySha1", Json.str "000102"), ("updateTime", Json.num "5")]
    "updateTime" rfl rfl (by decide) (by decide) (by decide) (by decide) (by decide)

end TIE
